import Mathlib

/-!
# Docker checks of `workers/docker.go`

A shallow embedding of the Docker check handlers (`dockerImage`,
`dockerImageRegexp`, `dockerRunning`, `dockerRunningAPI`,
`dockerRunningRegexp`), of the two acquisition functions
(`getRunningContainers`, `getRunningContainersAPI`) and of `RegisterDocker`.

Conventions of the embedding:

* A Go call that may end the process (`log.Fatal`) or panic (slice index out
  of range) is a function into `Run α = Except Abort α`.
* Everything the file reaches outside itself (the `docker` command, the Docker
  API client, `regexp.Compile`, and the table extractor of package `tabular`)
  is a field of `Env`, so every theorem quantified over `Env` holds for every
  behaviour of those collaborators.
* The helpers of packages `tabular` and `wrkutils` that decide a verdict
  (`StrIn`, `StrContainedIn`, `ReIn`, `GenericError`, `ParseUserRegex`) are not
  part of `workers/docker.go`; they are modelled from the specification and
  marked so.
* Go strings are modelled by Lean strings (sequences of Unicode scalar values).
-/

namespace Distributive

/-! ## Go runtime -/

/-- Ways in which a Go call ends without returning a value. -/
inductive Abort where
  /-- The call `log.Fatal(msg)`, or `log.WithFields(fields).Fatal(msg)`: the
  message is logged and the process exits. -/
  | fatal (msg : String) (fields : List (String × String))
  /-- The runtime panic raised by `xs[index]` when `index ≥ len(xs)`. -/
  | indexOutOfRange (index length : Nat)
  deriving DecidableEq, Repr

/-- A computation that returns a value or aborts. -/
abbrev Run (α : Type) := Except Abort α

/-- The Go expression `xs[i]`. -/
def index (xs : List String) (i : Nat) : Run String :=
  match xs.get? i with
  | some x => .ok x
  | none => .error (.indexOutOfRange i xs.length)

/-- Auxiliary scan of `strings.Contains`: does `sub` occur at some position of
the given text. -/
def hasInfix (sub : List Char) : List Char → Bool
  | [] => sub.isEmpty
  | c :: cs => sub.isPrefixOf (c :: cs) || hasInfix sub cs

/-- The Go function `strings.Contains(s, substr)`. -/
def strings.Contains (s substr : String) : Bool :=
  hasInfix substr.data s.data

/-! ## Data model -/

/-- The pair `(exitCode int, exitMessage string)` returned by every check. -/
structure Verdict where
  exitCode : Int
  exitMessage : String
  deriving DecidableEq, Repr

/-- Result of `exec.Command(...).CombinedOutput()`: the captured text, and the
text of the error when the error is not nil. -/
structure CmdResult where
  out : String
  err : Option String
  deriving DecidableEq, Repr

/-- The fields of `docker.APIContainers` read by `getRunningContainersAPI`. -/
structure APIContainers where
  Image : String
  Status : String
  deriving DecidableEq, Repr

/-- A Docker API client, reduced to `ListContainers`; the argument is the
option `All`. -/
structure Client where
  ListContainers : Bool → Except String (List APIContainers)

/-- A compiled `*regexp.Regexp`, reduced to what the handlers call. -/
structure Regexp where
  /-- The source text the expression was compiled from. -/
  expr : String
  MatchString : String → Bool

/-- The method `re.String()`. -/
def Regexp.String (re : Regexp) : String := re.expr

/-- Everything `workers/docker.go` reaches outside itself. -/
structure Env where
  /-- The call `exec.Command(name, args...).CombinedOutput()`, by argument vector. -/
  CombinedOutput : List String → CmdResult
  /-- The call `wrkutils.CommandColumnNoHeader(col, cmd)`, by column and
  argument vector: the column, or the message of a fatal error. -/
  CommandColumnNoHeader : Nat → List String → Except String (List String)
  /-- The call `docker.NewClient(endpoint)`. -/
  NewClient : String → Except String Client
  /-- The call `regexp.Compile(expr)`: the matcher of a valid expression. -/
  Compile : String → Option (String → Bool)
  /-- The call `tabular.ProbabalisticSplit(str)`. -/
  ProbabalisticSplit : String → List (List String)
  /-- The call `tabular.GetColumnByHeader(name, table)`. -/
  GetColumnByHeader : String → List (List String) → List String

/-! ## Helpers of packages `tabular` and `wrkutils` -/

/-- Modelled from the spec: `tabular.StrIn` is not part of `workers/docker.go`.
Spec §4.4, exact-presence check: "pass iff the target string equals (not
merely contains) an entry in the acquired sequence". -/
def tabular.StrIn (str : String) : List String → Bool
  | [] => false
  | s :: slice => if str = s then true else tabular.StrIn str slice

/-- Modelled from the spec: `tabular.StrContainedIn` is not part of
`workers/docker.go`. Spec §4.4, substring-containment check: "pass iff the
target string is found as a substring of at least one entry". -/
def tabular.StrContainedIn (str : String) : List String → Bool
  | [] => false
  | s :: slice => if strings.Contains s str then true else tabular.StrContainedIn str slice

/-- Modelled from the spec: `tabular.ReIn` is not part of `workers/docker.go`.
Spec §4.4, pattern-presence check: "pass iff at least one entry in the
acquired sequence matches the pattern". -/
def tabular.ReIn (re : Regexp) : List String → Bool
  | [] => false
  | s :: slice => if re.MatchString s then true else tabular.ReIn re slice

/-- The text `fmt.Sprint` gives for the elements of a `[]string`, separated by
one blank. -/
def sprintElems : List String → String
  | [] => ""
  | [s] => s
  | s :: t :: rest => s ++ " " ++ sprintElems (t :: rest)

/-- The text `fmt.Sprint` gives for a `[]string`. -/
def sprintSlice (xs : List String) : String :=
  "[" ++ sprintElems xs ++ "]"

/-- Modelled from the spec: `wrkutils.GenericError` is not part of
`workers/docker.go`. Spec §3 and §4.4: a comparison failure is a verdict with
a nonzero exit code whose message names "the check's intent, the searched
value (literal string or regex source), and the full observed candidate
sequence". -/
def wrkutils.GenericError (msg specified : String) (actual : List String) : Verdict :=
  ⟨1, msg ++ ":\n\tSpecified: " ++ specified ++ "\n\tActual: " ++ sprintSlice actual⟩

/-- Modelled from the spec: `wrkutils.ParseUserRegex` is not part of
`workers/docker.go`. Spec §4.4: the target "is a user-supplied regular
expression"; an expression that does not compile ends the process, and the
compiled expression remembers its source text. -/
def wrkutils.ParseUserRegex (env : Env) (regexStr : String) : Run Regexp :=
  match env.Compile regexStr with
  | some m => .ok ⟨regexStr, m⟩
  | none => .error (.fatal "Bad regular expression" [("regexp", regexStr)])

/-! ## `workers/docker.go` -/

/-- Source `getDockerImages`: column 0 of `docker images`, header dropped. -/
def getDockerImages (env : Env) : Run (List String) :=
  match env.CommandColumnNoHeader 0 ["docker", "images"] with
  | .ok images => .ok images
  | .error msg => .error (.fatal msg [])

/-- Source `dockerImage`. -/
def dockerImage (env : Env) (parameters : List String) : Run Verdict := do
  let name ← index parameters 0
  let images ← getDockerImages env
  if tabular.StrIn name images then
    return ⟨0, ""⟩
  return wrkutils.GenericError "Docker image was not found" name images

/-- Source `dockerImageRegexp`. -/
def dockerImageRegexp (env : Env) (parameters : List String) : Run Verdict := do
  let re ← (index parameters 0) >>= wrkutils.ParseUserRegex env
  let images ← getDockerImages env
  if tabular.ReIn re images then
    return ⟨0, ""⟩
  return wrkutils.GenericError "Docker image was not found" re.String images

/-- The `for i, status := range statuses` loop of `getRunningContainers`,
started at index `i` with the accumulated `containers`. -/
def getRunningContainers_loop (names : List String) :
    List String → Nat → List String → Run (List String)
  | [], _, containers => .ok containers
  | status :: statuses, i, containers =>
    if strings.Contains status "Up" && decide (names.length > i) then do
      let name ← index names i
      getRunningContainers_loop names statuses (i + 1) (containers ++ [name])
    else
      getRunningContainers_loop names statuses (i + 1) containers

/-- Source `getRunningContainers`. -/
def getRunningContainers (env : Env) : Run (List String) :=
  let res := env.CombinedOutput ["docker", "ps", "-a"]
  let outstr := res.out
  if res.err.isSome && strings.Contains outstr "permission denied" then
    .error (.fatal "Permission denied when running: docker ps -a" [])
  else match res.err with
  | some err =>
    .error (.fatal ("Error while running `docker ps -a`" ++ "\n\t" ++ err) [])
  | none =>
    let lines := env.ProbabalisticSplit outstr
    if lines.length < 1 then
      .ok []
    else
      let names := env.GetColumnByHeader "image" lines
      let statuses := env.GetColumnByHeader "status" lines
      getRunningContainers_loop names statuses 0 []

/-- The `for _, ctr := range ctrs` loop of `getRunningContainersAPI`, with the
accumulated `containers`. -/
def getRunningContainersAPI_loop : List APIContainers → List String → List String
  | [], containers => containers
  | ctr :: ctrs, containers =>
    if strings.Contains ctr.Status "Up" then
      getRunningContainersAPI_loop ctrs (containers ++ [ctr.Image])
    else
      getRunningContainersAPI_loop ctrs containers

/-- Source `getRunningContainersAPI`. -/
def getRunningContainersAPI (env : Env) (path : String) : Run (List String) :=
  let endpoint := path
  match env.NewClient endpoint with
  | .error err => .error (.fatal "Couldn't create Docker API client" [("error", err)])
  | .ok client =>
    match client.ListContainers false with
    | .error err => .error (.fatal "Couldn't list Docker containers" [("error", err)])
    | .ok ctrs => .ok (getRunningContainersAPI_loop ctrs [])

/-- Source `dockerRunning`. -/
def dockerRunning (env : Env) (parameters : List String) : Run Verdict := do
  let name ← index parameters 0
  let running ← getRunningContainers env
  if tabular.StrContainedIn name running then
    return ⟨0, ""⟩
  return wrkutils.GenericError "Docker container not runnning" name running

/-- Source `dockerRunningAPI`. -/
def dockerRunningAPI (env : Env) (parameters : List String) : Run Verdict := do
  let name ← index parameters 1
  let running ← (index parameters 0) >>= getRunningContainersAPI env
  if tabular.StrContainedIn name running then
    return ⟨0, ""⟩
  return wrkutils.GenericError "Docker container not runnning" name running

/-- Source `dockerRunningRegexp`. -/
def dockerRunningRegexp (env : Env) (parameters : List String) : Run Verdict := do
  let re ← (index parameters 0) >>= wrkutils.ParseUserRegex env
  let running ← getRunningContainers env
  if tabular.ReIn re running then
    return ⟨0, ""⟩
  let msg := "Docker container not runnning"
  return wrkutils.GenericError msg re.String running

/-- One call `wrkutils.RegisterCheck(name, work, numParams)`. -/
structure Check where
  name : String
  work : List String → Run Verdict
  numParams : Nat

/-- Source `RegisterDocker`: the five calls of `wrkutils.RegisterCheck`, in
order. -/
def RegisterDocker (env : Env) : List Check :=
  [⟨"dockerimage", dockerImage env, 1⟩,
   ⟨"dockerrunning", dockerRunning env, 1⟩,
   ⟨"dockerrunningapi", dockerRunningAPI env, 2⟩,
   ⟨"dockerimageregexp", dockerImageRegexp env, 1⟩,
   ⟨"dockerrunningregexp", dockerRunningRegexp env, 1⟩]

/-! ## A simulated host

Executable stand-ins for the collaborators of `Env`, used to run the handlers
on concrete inputs. -/

/-- Column separator characters of the table extractor: blank and tab. -/
def isBlank (c : Char) : Bool := c = ' ' || c = '\t'

/-- Scanner of `splitFields`. `cur` is the field being read (reversed),
`pending` a single blank seen after it and not yet known to be a separator,
`cut` tells that the scan stands inside a run of two or more blanks. -/
def splitFieldsAux : List Char → List Char → Option Char → Bool → List String
  | [], cur, _, _ => if cur.isEmpty then [] else [String.mk cur.reverse]
  | c :: cs, cur, pending, cut =>
    if isBlank c then
      if cut then splitFieldsAux cs cur none true
      else match pending with
        | none => splitFieldsAux cs cur (some c) false
        | some _ =>
          if cur.isEmpty then splitFieldsAux cs [] none true
          else String.mk cur.reverse :: splitFieldsAux cs [] none true
    else
      match pending with
      | some b =>
        if cur.isEmpty then splitFieldsAux cs [c] none false
        else splitFieldsAux cs (c :: b :: cur) none false
      | none => splitFieldsAux cs (c :: cur) none false

/-- Modelled from the spec: the splitting rule of the table extractor (package
`tabular`, not part of `workers/docker.go`). Spec §4.1: "split each line on
runs of 2+ whitespace characters; this tolerates single embedded spaces in a
field's value". -/
def splitFields (line : List Char) : List String :=
  splitFieldsAux line [] none false

/-- The lines of a text, cut at every newline. -/
def splitLines : List Char → List Char → List (List Char)
  | [], cur => [cur.reverse]
  | c :: cs, cur =>
    if c = '\n' then cur.reverse :: splitLines cs [] else splitLines cs (c :: cur)

/-- Modelled from the spec: `tabular.ProbabalisticSplit` is not part of
`workers/docker.go`. Spec §3 and §4.1: the first row is the header; "empty
input yields an empty Table with zero rows"; every data row has the field
count of the header row and "ragged rows ... are excluded". -/
def specProbabalisticSplit (str : String) : List (List String) :=
  match ((splitLines str.data []).map splitFields).filter (fun row => !row.isEmpty) with
  | [] => []
  | header :: rows => header :: rows.filter (fun row => row.length == header.length)

/-- ASCII lower case of a string, for the header comparison. -/
def lowerCase (s : String) : List Char := s.data.map Char.toLower

/-- Modelled from the spec: `tabular.GetColumnByHeader` is not part of
`workers/docker.go`. Spec §4.1: a search of the header row for `name`, here
without regard to case; "if found, returns the ordered sequence of values in
that column across all data rows, in row order; if not found, returns an
empty sequence". -/
def specGetColumnByHeader (name : String) (table : List (List String)) : List String :=
  match table with
  | [] => []
  | header :: rows =>
    match header.findIdx? (fun h => lowerCase h == lowerCase name) with
    | none => []
    | some j => rows.filterMap (fun row => row.get? j)

/-- One item of an expression of the fragment: a literal character or `.`,
possibly under `*`. -/
structure Atom where
  any : Bool
  lit : Char
  star : Bool
  deriving DecidableEq, Repr

/-- Characters with a special meaning in Go regular expressions. -/
def isMeta (c : Char) : Bool :=
  "\\.+*?()|[]\x7b\x7d^$".data.contains c

/-- Reads a sequence of atoms; `none` outside the fragment. -/
def parseAtoms : List Char → Option (List Atom)
  | [] => some []
  | [c] => if isMeta c && c != '.' then none else some [⟨c == '.', c, false⟩]
  | c :: d :: rest =>
    if isMeta c && c != '.' then none
    else if d == '*' then (parseAtoms rest).map (fun as => ⟨c == '.', c, true⟩ :: as)
    else (parseAtoms (d :: rest)).map (fun as => ⟨c == '.', c, false⟩ :: as)

/-- Does the atom accept the character; `.` accepts all but a newline. -/
def Atom.accepts (a : Atom) (c : Char) : Bool :=
  if a.any then c != '\n' else c == a.lit

/-- Matching of `a*` followed by the continuation `k`. -/
def matchStar (a : Atom) (k : List Char → Bool) : List Char → Bool
  | [] => k []
  | c :: cs => k (c :: cs) || (a.accepts c && matchStar a k cs)

/-- Does a prefix of the text match the atoms (the whole text when `toEnd`). -/
def matchHere (toEnd : Bool) : List Atom → List Char → Bool
  | [], text => !toEnd || text.isEmpty
  | a :: as, text =>
    if a.star then matchStar a (matchHere toEnd as) text
    else match text with
      | [] => false
      | c :: cs => a.accepts c && matchHere toEnd as cs

/-- Does the text contain a match starting at some position. -/
def matchAnywhere (toEnd : Bool) (as : List Atom) : List Char → Bool
  | [] => matchHere toEnd as []
  | c :: cs => matchHere toEnd as (c :: cs) || matchAnywhere toEnd as cs

/-- Splits a trailing `$` off an expression. -/
def stripDollar (cs : List Char) : List Char × Bool :=
  match cs.reverse with
  | '$' :: rest => (rest.reverse, true)
  | _ => (cs, false)

/-- Go's `regexp.Compile` and `MatchString` on the fragment of expressions
built from literal characters, `.`, a postfix `*`, a leading `^` and a trailing
`$`; `none` on every other expression. -/
def compileFragment (expr : String) : Option (String → Bool) :=
  let (fromStart, body) :=
    match expr.data with
    | '^' :: rest => (true, rest)
    | cs => (false, cs)
  let (body, toEnd) := stripDollar body
  (parseAtoms body).map fun as s =>
    if fromStart then matchHere toEnd as s.data else matchAnywhere toEnd as s.data

/-- A simulated host: `docker images` lists `images` in column 0, `docker ps
-a` gives `ps`, the API at every endpoint lists `ctrs`, expressions are those
of `compileFragment`, tables are extracted as the specification describes. -/
def simEnv (images : List String) (ps : CmdResult) (ctrs : List APIContainers) : Env where
  CombinedOutput := fun _ => ps
  CommandColumnNoHeader := fun _ _ => .ok images
  NewClient := fun _ => .ok ⟨fun _ => .ok ctrs⟩
  Compile := compileFragment
  ProbabalisticSplit := specProbabalisticSplit
  GetColumnByHeader := specGetColumnByHeader

/-- A `docker ps -a` listing with one running container of image `redis` and
one exited container of image `mysql`. -/
def psListing : String :=
  "CONTAINER ID  IMAGE  COMMAND  CREATED  STATUS  PORTS  NAMES\n" ++
  "4c01db0b339c  redis  \"redis-server\"  3 hours ago  Up 3 hours  6379/tcp  cache\n" ++
  "d7886598dbe2  mysql  \"mysqld\"  4 hours ago  Exited (0) 2 hours ago  3306/tcp  db\n"

/-- A `docker ps -a` listing of one running container whose command line
contains the text "permission denied". -/
def psEcho : String :=
  "CONTAINER ID  IMAGE  COMMAND  CREATED  STATUS  PORTS  NAMES\n" ++
  "9f2c6a1e0b7d  alpine  \"echo permission denied\"  1 hour ago  Up 1 hour  80/tcp  web\n"

/-- The text printed by `docker ps -a` when the Docker socket may not be
opened. -/
def psDenied : String :=
  "Got permission denied while trying to connect to the Docker daemon socket\n"

/-- The invariant of a verdict returned for the searched-for value `searched`
against the observed candidates `S`: exit code 0 comes with the empty message;
a nonzero exit code comes with a non-empty message that contains `searched`
and every entry of `S`. -/
def VerdictInvariant (v : Verdict) (searched : String) (S : List String) : Prop :=
  (v.exitCode = 0 → v.exitMessage = "") ∧
  (v.exitCode ≠ 0 →
    v.exitMessage ≠ "" ∧ searched.data <:+: v.exitMessage.data ∧
    ∀ s ∈ S, s.data <:+: v.exitMessage.data)

/-- Did the computation end in an index-out-of-range panic. -/
def indexFault {α : Type} : Run α → Bool
  | .error (.indexOutOfRange _ _) => true
  | _ => false

/-! ## Lemmas on the helpers -/

theorem hasInfix_iff (sub s : List Char) : hasInfix sub s = true ↔ sub <:+: s := by
  induction s with
  | nil => simp [hasInfix]
  | cons c cs ih =>
    simp only [hasInfix, Bool.or_eq_true, ih, List.infix_cons_iff, List.isPrefixOf_iff_prefix]

theorem Contains_iff (s substr : String) :
    strings.Contains s substr = true ↔ substr.data <:+: s.data := by
  simp [strings.Contains, hasInfix_iff]

theorem StrIn_iff (str : String) (slice : List String) :
    tabular.StrIn str slice = true ↔ str ∈ slice := by
  induction slice with
  | nil => simp [tabular.StrIn]
  | cons s slice ih =>
    by_cases h : str = s <;> simp [tabular.StrIn, h, ih]

theorem StrContainedIn_iff (str : String) (slice : List String) :
    tabular.StrContainedIn str slice = true ↔ ∃ s ∈ slice, str.data <:+: s.data := by
  induction slice with
  | nil => simp [tabular.StrContainedIn]
  | cons s slice ih =>
    by_cases h : strings.Contains s str = true
    · simp [tabular.StrContainedIn, h, (Contains_iff s str).1 h]
    · have h2 : ¬ str.data <:+: s.data := fun hc => h ((Contains_iff s str).2 hc)
      simp [tabular.StrContainedIn, h, ih, h2]

theorem ReIn_iff (re : Regexp) (slice : List String) :
    tabular.ReIn re slice = true ↔ ∃ s ∈ slice, re.MatchString s = true := by
  induction slice with
  | nil => simp [tabular.ReIn]
  | cons s slice ih =>
    by_cases h : re.MatchString s = true <;> simp [tabular.ReIn, h, ih]

theorem index_inRange (xs : List String) (i : Nat) (h : i < xs.length) :
    index xs i = .ok (xs.getD i "") := by
  simp [index, List.getD_eq_getElem?_getD, List.getElem?_eq_getElem h]

/-- The running filter on paired columns: the names of the rows whose status
holds the marker. -/
theorem loop_eq_zip (names : List String) :
    ∀ (statuses : List String) (i : Nat) (containers : List String),
      getRunningContainers_loop names statuses i containers =
        .ok (containers ++
          (((names.drop i).zip statuses).filter (fun p => strings.Contains p.2 "Up")).map Prod.fst) := by
  intro statuses
  induction statuses with
  | nil => intro i containers; simp [getRunningContainers_loop]
  | cons status rest ih =>
    intro i containers
    by_cases hi : i < names.length
    · have hd : names.drop i = names.getD i "" :: names.drop (i + 1) := by
        rw [List.drop_eq_getElem_cons hi]
        simp [List.getD_eq_getElem?_getD, List.getElem?_eq_getElem hi]
      have hx : ∃ x, index names i = .ok x ∧ names.drop i = x :: names.drop (i + 1) :=
        ⟨_, index_inRange names i hi, hd⟩
      obtain ⟨x, hix, hdx⟩ := hx
      rw [hdx]
      by_cases hc : strings.Contains status "Up" = true
      · simp [getRunningContainers_loop, hc, hi, hix, ih, bind, Except.bind]
      · simp [getRunningContainers_loop, hc, ih]
    · have hd : names.drop i = [] := List.drop_eq_nil_of_le (Nat.le_of_not_lt hi)
      have hd1 : names.drop (i + 1) = [] := List.drop_eq_nil_of_le (by omega)
      rw [hd]
      simp [getRunningContainers_loop, hi, ih, hd1]

theorem zip_filter_eq_range (p : String → Bool) :
    ∀ (names statuses : List String),
      ((names.zip statuses).filter (fun q => p q.2)).map Prod.fst =
        ((List.range (min names.length statuses.length)).filter
          (fun i => p (statuses.getD i ""))).map (fun i => names.getD i "") := by
  intro names
  induction names with
  | nil => intro statuses; simp
  | cons n ns ih =>
    intro statuses
    cases statuses with
    | nil => simp
    | cons s ss =>
      have hmin : min (n :: ns).length (s :: ss).length = min ns.length ss.length + 1 := by
        simp [Nat.succ_min_succ]
      rw [hmin, List.range_succ_eq_map]
      by_cases hp : p s = true
      · simp [List.filter_cons, hp, ih, List.filter_map, Function.comp_def, List.map_map]
      · simp [List.filter_cons, hp, ih, List.filter_map, Function.comp_def, List.map_map]

theorem zip_filter_sublist (p : String → Bool) :
    ∀ (names statuses : List String),
      (((names.zip statuses).filter (fun q => p q.2)).map Prod.fst).Sublist names := by
  intro names
  induction names with
  | nil => intro statuses; simp
  | cons n ns ih =>
    intro statuses
    cases statuses with
    | nil => simp
    | cons s ss =>
      by_cases hp : p s = true
      · simpa [List.filter_cons, hp] using ih ss
      · simpa [List.filter_cons, hp] using (ih ss).trans (List.sublist_cons_self n ns)

theorem loop_eq_range (names statuses : List String) :
    getRunningContainers_loop names statuses 0 [] =
      .ok (((List.range (min names.length statuses.length)).filter
        (fun i => strings.Contains (statuses.getD i "") "Up")).map (fun i => names.getD i "")) := by
  rw [loop_eq_zip, ← zip_filter_eq_range (fun s => strings.Contains s "Up")]
  simp

theorem apiLoop_eq_filter :
    ∀ (ctrs : List APIContainers) (containers : List String),
      getRunningContainersAPI_loop ctrs containers =
        containers ++ (ctrs.filter (fun c => strings.Contains c.Status "Up")).map (fun c => c.Image) := by
  intro ctrs
  induction ctrs with
  | nil => intro containers; simp [getRunningContainersAPI_loop]
  | cons c cs ih =>
    intro containers
    by_cases hc : strings.Contains c.Status "Up" = true
    · simp [getRunningContainersAPI_loop, hc, ih]
    · simp [getRunningContainersAPI_loop, hc, ih]

theorem getRunningContainers_ok (env : Env) (out : String)
    (hcmd : env.CombinedOutput ["docker", "ps", "-a"] = ⟨out, none⟩)
    (hrows : 1 ≤ (env.ProbabalisticSplit out).length) :
    getRunningContainers env =
      getRunningContainers_loop (env.GetColumnByHeader "image" (env.ProbabalisticSplit out))
        (env.GetColumnByHeader "status" (env.ProbabalisticSplit out)) 0 [] := by
  have h : ¬ (env.ProbabalisticSplit out).length < 1 := by omega
  simp [getRunningContainers, hcmd, h]

/-! ## The claims -/

/-- C1. Exact-presence check: when `getDockerImages` returns `S`, the call
`dockerImage([t])` returns a verdict, and its exit code is 0 if and only if
some entry of `S` is equal to `t`; with `S = ["ubuntu1"]` and `t = "ubuntu"`,
where the only entry merely contains the target, the exit code is not 0. -/
theorem dockerImage_exact_presence (env : Env) (S : List String) (t : String)
    (hS : getDockerImages env = .ok S) :
    (∃ v, dockerImage env [t] = .ok v ∧ (v.exitCode = 0 ↔ t ∈ S)) ∧
    "ubuntu".data <:+: "ubuntu1".data ∧
    ∀ env1 : Env, getDockerImages env1 = .ok ["ubuntu1"] →
      ∃ v, dockerImage env1 ["ubuntu"] = .ok v ∧ v.exitCode ≠ 0 := by
  have key : ∀ (env : Env) (S : List String) (t : String), getDockerImages env = .ok S →
      ∃ v, dockerImage env [t] = .ok v ∧ (v.exitCode = 0 ↔ t ∈ S) := by
    intro env S t hS
    by_cases h : tabular.StrIn t S = true
    · exact ⟨⟨0, ""⟩, by simp [dockerImage, index, hS, h, bind, Except.bind, pure, Except.pure],
        by simpa using (StrIn_iff t S).1 h⟩
    · refine ⟨wrkutils.GenericError "Docker image was not found" t S,
        by simp [dockerImage, index, hS, h, bind, Except.bind, pure, Except.pure], ?_⟩
      have hn : t ∉ S := fun hm => h ((StrIn_iff t S).2 hm)
      simp [wrkutils.GenericError, hn]
  refine ⟨key env S t hS, by decide, ?_⟩
  intro env1 hS1
  obtain ⟨v, hv, hiff⟩ := key env1 ["ubuntu1"] "ubuntu" hS1
  exact ⟨v, hv, fun h0 => by
    have := hiff.1 h0
    revert this
    decide⟩

/-- Witness of C1 on a simulated host whose image list is `["ubuntu1"]`. -/
theorem dockerImage_exact_presence_witness :
    getDockerImages (simEnv ["ubuntu1"] ⟨"", none⟩ []) = .ok ["ubuntu1"] ∧
    ∃ v, dockerImage (simEnv ["ubuntu1"] ⟨"", none⟩ []) ["ubuntu"] = .ok v ∧
      (v.exitCode = 0 ↔ "ubuntu" ∈ ["ubuntu1"]) :=
  ⟨rfl, (dockerImage_exact_presence (simEnv ["ubuntu1"] ⟨"", none⟩ []) ["ubuntu1"] "ubuntu" rfl).1⟩

/-- C2. Substring-containment check: when `getRunningContainers` returns `S`,
the call `dockerRunning([t])` returns a verdict, and its exit code is 0 if and
only if `t` is a substring of some entry of `S`. -/
theorem dockerRunning_substring (env : Env) (S : List String) (t : String)
    (hS : getRunningContainers env = .ok S) :
    ∃ v, dockerRunning env [t] = .ok v ∧
      (v.exitCode = 0 ↔ ∃ s ∈ S, t.data <:+: s.data) := by
  by_cases h : tabular.StrContainedIn t S = true
  · exact ⟨⟨0, ""⟩, by simp [dockerRunning, index, hS, h, bind, Except.bind, pure, Except.pure],
      by simpa using (StrContainedIn_iff t S).1 h⟩
  · refine ⟨wrkutils.GenericError "Docker container not runnning" t S,
      by simp [dockerRunning, index, hS, h, bind, Except.bind, pure, Except.pure], ?_⟩
    have hn : ¬ ∃ s ∈ S, t.data <:+: s.data := fun hm => h ((StrContainedIn_iff t S).2 hm)
    simp only [wrkutils.GenericError, hn, iff_false]
    decide

/-- Witness of C2 on a simulated host running `redis` beside a stopped
`mysql`: the target `"edi"` is found inside `"redis"`. -/
theorem dockerRunning_substring_witness :
    getRunningContainers (simEnv [] ⟨psListing, none⟩ []) = .ok ["redis"] ∧
    ∃ v, dockerRunning (simEnv [] ⟨psListing, none⟩ []) ["edi"] = .ok v ∧
      (v.exitCode = 0 ↔ ∃ s ∈ ["redis"], "edi".data <:+: s.data) :=
  ⟨rfl, dockerRunning_substring (simEnv [] ⟨psListing, none⟩ []) ["redis"] "edi" rfl⟩


theorem filters_agree (state : List (String × String)) :
    (((state.map Prod.fst).zip (state.map Prod.snd)).filter
        (fun p => strings.Contains p.2 "Up")).map Prod.fst =
      ((state.map fun r => (⟨r.1, r.2⟩ : APIContainers)).filter
        (fun c => strings.Contains c.Status "Up")).map (fun c => c.Image) := by
  induction state with
  | nil => simp
  | cons r rs ih =>
    by_cases hc : strings.Contains r.2 "Up" = true
    · simpa [List.filter_cons, hc] using ih
    · simpa [List.filter_cons, hc] using ih

/-- C3. Running filter of the text-scrape strategy: on a successful command
whose output has at least one table row, with `names` the column under
"image" and `statuses` the column under "status" (of any lengths),
`getRunningContainers` returns, without an index out of range, exactly the
values `names[i]` in increasing order of `i` for the indices `i` below both
lengths whose `statuses[i]` contains "Up"; every returned value comes from
such a row, the result is a subsequence of `names`, and it has at most
`min(len(names), len(statuses))` entries. -/
theorem getRunningContainers_running_filter (env : Env) (out : String)
    (names statuses : List String)
    (hcmd : env.CombinedOutput ["docker", "ps", "-a"] = ⟨out, none⟩)
    (hrows : 1 ≤ (env.ProbabalisticSplit out).length)
    (hnames : env.GetColumnByHeader "image" (env.ProbabalisticSplit out) = names)
    (hstatuses : env.GetColumnByHeader "status" (env.ProbabalisticSplit out) = statuses) :
    ∃ containers,
      getRunningContainers env = .ok containers ∧
      getRunningContainers_loop names statuses 0 [] = .ok containers ∧
      containers =
        ((List.range (min names.length statuses.length)).filter
          (fun i => strings.Contains (statuses.getD i "") "Up")).map (fun i => names.getD i "") ∧
      (∀ c ∈ containers, ∃ i, i < names.length ∧ i < statuses.length ∧
        names.getD i "" = c ∧ strings.Contains (statuses.getD i "") "Up" = true) ∧
      containers.Sublist names ∧
      containers.length ≤ min names.length statuses.length := by
  refine ⟨_, ?_, loop_eq_range names statuses, rfl, ?_, ?_, ?_⟩
  · rw [getRunningContainers_ok env out hcmd hrows, hnames, hstatuses, loop_eq_range]
  · intro c hc
    obtain ⟨i, hi, hci⟩ := List.mem_map.1 hc
    obtain ⟨hir, hup⟩ := List.mem_filter.1 hi
    have hlt := List.mem_range.1 hir
    exact ⟨i, lt_of_lt_of_le hlt (Nat.min_le_left _ _),
      lt_of_lt_of_le hlt (Nat.min_le_right _ _), hci, hup⟩
  · rw [← zip_filter_eq_range (fun s => strings.Contains s "Up")]
    exact zip_filter_sublist (fun s => strings.Contains s "Up") names statuses
  · rw [List.length_map]
    exact (List.length_filter_le _ _).trans (by simp)

/-- Witness of C3 on a simulated host whose listing has a running `redis` row
and an exited `mysql` row. -/
theorem getRunningContainers_running_filter_witness :
    ∃ containers,
      getRunningContainers (simEnv [] ⟨psListing, none⟩ []) = .ok containers ∧
      getRunningContainers_loop ["redis", "mysql"] ["Up 3 hours", "Exited (0) 2 hours ago"] 0 [] =
        .ok containers ∧
      containers =
        ((List.range (min ["redis", "mysql"].length
            ["Up 3 hours", "Exited (0) 2 hours ago"].length)).filter
          (fun i => strings.Contains
            (["Up 3 hours", "Exited (0) 2 hours ago"].getD i "") "Up")).map
          (fun i => ["redis", "mysql"].getD i "") ∧
      (∀ c ∈ containers, ∃ i, i < ["redis", "mysql"].length ∧
        i < ["Up 3 hours", "Exited (0) 2 hours ago"].length ∧
        ["redis", "mysql"].getD i "" = c ∧
        strings.Contains (["Up 3 hours", "Exited (0) 2 hours ago"].getD i "") "Up" = true) ∧
      containers.Sublist ["redis", "mysql"] ∧
      containers.length ≤ min ["redis", "mysql"].length
        ["Up 3 hours", "Exited (0) 2 hours ago"].length :=
  getRunningContainers_running_filter (simEnv [] ⟨psListing, none⟩ []) psListing
    ["redis", "mysql"] ["Up 3 hours", "Exited (0) 2 hours ago"] rfl (by decide) rfl rfl

theorem apiFilter_eq_state (state : List (String × String)) :
    ((state.map fun r => (⟨r.1, r.2⟩ : APIContainers)).filter
        (fun c => strings.Contains c.Status "Up")).map (fun c => c.Image) =
      (state.filter (fun r => strings.Contains r.2 "Up")).map Prod.fst := by
  induction state with
  | nil => simp
  | cons r rs ih =>
    by_cases hc : strings.Contains r.2 "Up" = true
    · simpa [List.filter_cons, hc] using ih
    · simpa [List.filter_cons, hc] using ih

/-- C4. Strategy equivalence: for every state given as a list of (image,
status) records, when `docker ps -a` succeeds with a table whose "image" and
"status" columns are those of the list and the API client at the endpoint
lists the same records, `getRunningContainers` and `getRunningContainersAPI`
both return the images of the records whose status contains "Up", in order:
the same sequence, hence set-equal sequences. The same holds of their two
filter loops on any list. For a running `redis` and an exited `mysql` both
functions return `["redis"]`, which is neither `["redis", "mysql"]` nor
`[]`. -/
theorem strategies_agree (env : Env) (out e : String) (client : Client)
    (state : List (String × String))
    (hcmd : env.CombinedOutput ["docker", "ps", "-a"] = ⟨out, none⟩)
    (hrows : 1 ≤ (env.ProbabalisticSplit out).length)
    (hnames : env.GetColumnByHeader "image" (env.ProbabalisticSplit out) = state.map Prod.fst)
    (hstatuses :
      env.GetColumnByHeader "status" (env.ProbabalisticSplit out) = state.map Prod.snd)
    (hclient : env.NewClient e = .ok client)
    (hlist : client.ListContainers false = .ok (state.map fun r => ⟨r.1, r.2⟩)) :
    (∃ scraped listed,
      getRunningContainers env = .ok scraped ∧
      getRunningContainersAPI env e = .ok listed ∧
      (∀ x, x ∈ scraped ↔ x ∈ listed) ∧
      scraped = listed ∧
      listed = (state.filter (fun r => strings.Contains r.2 "Up")).map Prod.fst) ∧
    (∃ containers,
      getRunningContainers_loop (state.map Prod.fst) (state.map Prod.snd) 0 [] = .ok containers ∧
      containers = getRunningContainersAPI_loop (state.map fun r => ⟨r.1, r.2⟩) []) ∧
    getRunningContainers
      (simEnv [] ⟨psListing, none⟩
        [⟨"redis", "Up 3 hours"⟩, ⟨"mysql", "Exited (0) 2 hours ago"⟩]) = .ok ["redis"] ∧
    getRunningContainersAPI
      (simEnv [] ⟨psListing, none⟩
        [⟨"redis", "Up 3 hours"⟩, ⟨"mysql", "Exited (0) 2 hours ago"⟩])
      "unix:///var/run/docker.sock" = .ok ["redis"] ∧
    ["redis"] ≠ ["redis", "mysql"] ∧ ["redis"] ≠ ([] : List String) := by
  have hloop : getRunningContainers_loop (state.map Prod.fst) (state.map Prod.snd) 0 [] =
      .ok (getRunningContainersAPI_loop (state.map fun r => ⟨r.1, r.2⟩) []) := by
    rw [loop_eq_zip, apiLoop_eq_filter]
    simpa using filters_agree state
  have hscrape : getRunningContainers env =
      .ok (getRunningContainersAPI_loop (state.map fun r => ⟨r.1, r.2⟩) []) := by
    rw [getRunningContainers_ok env out hcmd hrows, hnames, hstatuses, hloop]
  have hapi : getRunningContainersAPI env e =
      .ok (getRunningContainersAPI_loop (state.map fun r => ⟨r.1, r.2⟩) []) := by
    simp [getRunningContainersAPI, hclient, hlist]
  refine ⟨⟨_, _, hscrape, hapi, fun x => Iff.rfl, rfl, ?_⟩, ⟨_, hloop, rfl⟩, rfl, rfl,
    by decide, by decide⟩
  rw [apiLoop_eq_filter]
  simpa using apiFilter_eq_state state

/-- Witness of C4 on a simulated host whose listing and whose API both show a
running `redis` and an exited `mysql`. -/
theorem strategies_agree_witness :
    ∃ scraped listed,
      getRunningContainers
        (simEnv [] ⟨psListing, none⟩
          [⟨"redis", "Up 3 hours"⟩, ⟨"mysql", "Exited (0) 2 hours ago"⟩]) = .ok scraped ∧
      getRunningContainersAPI
        (simEnv [] ⟨psListing, none⟩
          [⟨"redis", "Up 3 hours"⟩, ⟨"mysql", "Exited (0) 2 hours ago"⟩])
        "unix:///var/run/docker.sock" = .ok listed ∧
      (∀ x, x ∈ scraped ↔ x ∈ listed) ∧
      scraped = listed ∧
      listed =
        ([("redis", "Up 3 hours"), ("mysql", "Exited (0) 2 hours ago")].filter
          (fun r => strings.Contains r.2 "Up")).map Prod.fst :=
  (strategies_agree
    (simEnv [] ⟨psListing, none⟩ [⟨"redis", "Up 3 hours"⟩, ⟨"mysql", "Exited (0) 2 hours ago"⟩])
    psListing "unix:///var/run/docker.sock"
    ⟨fun _ => .ok [⟨"redis", "Up 3 hours"⟩, ⟨"mysql", "Exited (0) 2 hours ago"⟩]⟩
    [("redis", "Up 3 hours"), ("mysql", "Exited (0) 2 hours ago")]
    rfl (by decide) rfl rfl rfl rfl).1

/-- C7. API-backed variant: when `getRunningContainersAPI(e)` and
`getRunningContainers()` both return `S`, `dockerRunningAPI([e, t])` returns
the same verdict as `dockerRunning([t])`, exit code and message; that verdict
is a function of `t` and `S` alone, so the first parameter only selects the
endpoint and the second is only the comparison target. -/
theorem dockerRunningAPI_eq_dockerRunning (env : Env) (e t : String) (S : List String)
    (hapi : getRunningContainersAPI env e = .ok S)
    (hps : getRunningContainers env = .ok S) :
    dockerRunningAPI env [e, t] = dockerRunning env [t] ∧
    dockerRunningAPI env [e, t] =
      .ok (if tabular.StrContainedIn t S then ⟨0, ""⟩
        else wrkutils.GenericError "Docker container not runnning" t S) ∧
    ∀ e2, getRunningContainersAPI env e2 = .ok S →
      dockerRunningAPI env [e2, t] = dockerRunningAPI env [e, t] := by
  have key : ∀ e1, getRunningContainersAPI env e1 = .ok S →
      dockerRunningAPI env [e1, t] =
        .ok (if tabular.StrContainedIn t S then ⟨0, ""⟩
          else wrkutils.GenericError "Docker container not runnning" t S) := by
    intro e1 h1
    by_cases h : tabular.StrContainedIn t S = true <;>
      simp [dockerRunningAPI, index, h1, h, bind, Except.bind, pure, Except.pure]
  refine ⟨?_, key e hapi, fun e2 h2 => (key e2 h2).trans (key e hapi).symm⟩
  rw [key e hapi]
  by_cases h : tabular.StrContainedIn t S = true <;>
    simp [dockerRunning, index, hps, h, bind, Except.bind, pure, Except.pure]

/-- Witness of C7 on a simulated host where the listing and the API both show
a running `redis`. -/
theorem dockerRunningAPI_eq_dockerRunning_witness :
    dockerRunningAPI (simEnv [] ⟨psListing, none⟩ [⟨"redis", "Up 3 hours"⟩])
        ["unix:///var/run/docker.sock", "mysql"] =
      dockerRunning (simEnv [] ⟨psListing, none⟩ [⟨"redis", "Up 3 hours"⟩]) ["mysql"] ∧
    dockerRunning (simEnv [] ⟨psListing, none⟩ [⟨"redis", "Up 3 hours"⟩]) ["mysql"] =
      .ok ⟨1, "Docker container not runnning:\n\tSpecified: mysql\n\tActual: [redis]"⟩ :=
  ⟨(dockerRunningAPI_eq_dockerRunning (simEnv [] ⟨psListing, none⟩ [⟨"redis", "Up 3 hours"⟩])
      "unix:///var/run/docker.sock" "mysql" ["redis"] rfl rfl).1, rfl⟩


/-! ### Failure classification -/

theorem permission_msg_ne_generic (e : String) :
    "Permission denied when running: docker ps -a" ≠
      "Error while running `docker ps -a`" ++ "\n\t" ++ e := by
  intro h
  have h2 := congrArg (fun s : String => s.data.head?) h
  simp at h2

/-- C8, refuted as stated. On a simulated host the command succeeds and its
listing contains the text "permission denied" (in the COMMAND column);
`getRunningContainers` returns a sequence and `dockerRunning` a verdict. -/
theorem permission_denied_text_on_success :
    strings.Contains psEcho "permission denied" = true ∧
    getRunningContainers (simEnv [] ⟨psEcho, none⟩ []) = .ok ["alpine"] ∧
    dockerRunning (simEnv [] ⟨psEcho, none⟩ []) ["alpine"] = .ok ⟨0, ""⟩ ∧
    dockerRunningRegexp (simEnv [] ⟨psEcho, none⟩ []) ["^alp"] = .ok ⟨0, ""⟩ :=
  ⟨by decide, rfl, rfl, rfl⟩

/-- C8, amended. Permission-denied escalation: for every failing result of
`docker ps -a` (error not nil) whose output contains "permission denied",
`getRunningContainers` ends the process with the permission-denied message
and returns no sequence, so neither `dockerRunning` nor `dockerRunningRegexp`
returns a verdict, whatever their parameters. -/
theorem getRunningContainers_permission_denied (env : Env) (out err : String)
    (hcmd : env.CombinedOutput ["docker", "ps", "-a"] = ⟨out, some err⟩)
    (hden : strings.Contains out "permission denied" = true) :
    getRunningContainers env =
      .error (.fatal "Permission denied when running: docker ps -a" []) ∧
    (∀ S, getRunningContainers env ≠ .ok S) ∧
    (∀ t, dockerRunning env [t] =
      .error (.fatal "Permission denied when running: docker ps -a" [])) ∧
    (∀ parameters v, dockerRunning env parameters ≠ .ok v) ∧
    (∀ parameters v, dockerRunningRegexp env parameters ≠ .ok v) := by
  have hg : getRunningContainers env =
      .error (.fatal "Permission denied when running: docker ps -a" []) := by
    simp [getRunningContainers, hcmd, hden]
  refine ⟨hg, ?_, ?_, ?_, ?_⟩
  · intro S; rw [hg]; exact fun h => by cases h
  · intro t; simp [dockerRunning, index, hg, bind, Except.bind]
  · intro parameters v
    cases hp : index parameters 0 with
    | error a => simp [dockerRunning, hp, bind, Except.bind]
    | ok name => simp [dockerRunning, hp, hg, bind, Except.bind]
  · intro parameters v
    cases hp : index parameters 0 with
    | error a => simp [dockerRunningRegexp, hp, bind, Except.bind]
    | ok r =>
      cases hr : wrkutils.ParseUserRegex env r with
      | error a => simp [dockerRunningRegexp, hp, hr, bind, Except.bind]
      | ok re => simp [dockerRunningRegexp, hp, hr, hg, bind, Except.bind]

/-- Witness of C8 (amended) on a simulated host where `docker ps -a` fails
with a permission-denied text. -/
theorem getRunningContainers_permission_denied_witness :
    strings.Contains psDenied "permission denied" = true ∧
    getRunningContainers (simEnv [] ⟨psDenied, some "exit status 1"⟩ []) =
      .error (.fatal "Permission denied when running: docker ps -a" []) :=
  ⟨by decide,
    (getRunningContainers_permission_denied (simEnv [] ⟨psDenied, some "exit status 1"⟩ [])
      psDenied "exit status 1" rfl (by decide)).1⟩

/-- C9. Fatal-iff-failure classification: `getRunningContainers` returns a
sequence if and only if the command signalled success; on a failing result it
ends the process, with the message "Permission denied when running: docker ps
-a" exactly when the output contains "permission denied" and with the message
"Error while running ..." followed by the error text otherwise; on success
with an output of zero table rows (an empty table, or an empty status column)
it returns the empty sequence. -/
theorem getRunningContainers_fatal_iff_failure (env : Env) :
    ((∃ S, getRunningContainers env = .ok S) ↔
      (env.CombinedOutput ["docker", "ps", "-a"]).err = none) ∧
    (∀ e, (env.CombinedOutput ["docker", "ps", "-a"]).err = some e →
      (strings.Contains (env.CombinedOutput ["docker", "ps", "-a"]).out "permission denied" = true →
        getRunningContainers env =
          .error (.fatal "Permission denied when running: docker ps -a" [])) ∧
      (strings.Contains (env.CombinedOutput ["docker", "ps", "-a"]).out "permission denied" = false →
        getRunningContainers env =
          .error (.fatal ("Error while running `docker ps -a`" ++ "\n\t" ++ e) [])) ∧
      (getRunningContainers env =
          .error (.fatal "Permission denied when running: docker ps -a" []) ↔
        strings.Contains (env.CombinedOutput ["docker", "ps", "-a"]).out "permission denied" = true)) ∧
    ((env.CombinedOutput ["docker", "ps", "-a"]).err = none →
      env.ProbabalisticSplit (env.CombinedOutput ["docker", "ps", "-a"]).out = [] →
      getRunningContainers env = .ok []) ∧
    ((env.CombinedOutput ["docker", "ps", "-a"]).err = none →
      env.GetColumnByHeader "status"
        (env.ProbabalisticSplit (env.CombinedOutput ["docker", "ps", "-a"]).out) = [] →
      getRunningContainers env = .ok []) := by
  refine ⟨?_, ?_, ?_, ?_⟩
  · constructor
    · rintro ⟨S, hS⟩
      cases he : (env.CombinedOutput ["docker", "ps", "-a"]).err with
      | none => rfl
      | some e =>
        exfalso
        by_cases hc : strings.Contains (env.CombinedOutput ["docker", "ps", "-a"]).out
            "permission denied" = true <;>
          simp [getRunningContainers, he, hc] at hS
    · intro he
      by_cases hl : (env.ProbabalisticSplit (env.CombinedOutput ["docker", "ps", "-a"]).out).length < 1
      · exact ⟨[], by simp [getRunningContainers, he, hl]⟩
      · have hs : getRunningContainers env =
            getRunningContainers_loop
              (env.GetColumnByHeader "image"
                (env.ProbabalisticSplit (env.CombinedOutput ["docker", "ps", "-a"]).out))
              (env.GetColumnByHeader "status"
                (env.ProbabalisticSplit (env.CombinedOutput ["docker", "ps", "-a"]).out)) 0 [] := by
          simp [getRunningContainers, he, hl]
        exact ⟨_, hs.trans (loop_eq_range _ _)⟩
  · intro e he
    have h1 : strings.Contains (env.CombinedOutput ["docker", "ps", "-a"]).out "permission denied" = true →
        getRunningContainers env =
          .error (.fatal "Permission denied when running: docker ps -a" []) := by
      intro hc; simp [getRunningContainers, he, hc]
    have h2 : strings.Contains (env.CombinedOutput ["docker", "ps", "-a"]).out "permission denied" = false →
        getRunningContainers env =
          .error (.fatal ("Error while running `docker ps -a`" ++ "\n\t" ++ e) []) := by
      intro hc; simp [getRunningContainers, he, hc]
    refine ⟨h1, h2, ⟨fun hg => ?_, h1⟩⟩
    by_contra hc
    have hc2 := h2 (by simpa using hc)
    rw [hc2] at hg
    injection hg with hg
    injection hg with hg
    exact permission_msg_ne_generic e hg.symm
  · intro he hl
    simp [getRunningContainers, he, hl]
  · intro he hst
    by_cases hl : (env.ProbabalisticSplit (env.CombinedOutput ["docker", "ps", "-a"]).out).length < 1
    · simp [getRunningContainers, he, hl]
    · simp [getRunningContainers, he, hl, hst, getRunningContainers_loop]

/-- Witness of C9 on a simulated host where `docker ps -a` fails without a
permission-denied text: the generic message is logged. -/
theorem getRunningContainers_fatal_iff_failure_witness :
    (simEnv [] ⟨"Cannot connect to the Docker daemon", some "exit status 1"⟩ []).CombinedOutput
        ["docker", "ps", "-a"] =
      ⟨"Cannot connect to the Docker daemon", some "exit status 1"⟩ ∧
    getRunningContainers
        (simEnv [] ⟨"Cannot connect to the Docker daemon", some "exit status 1"⟩ []) =
      .error (.fatal "Error while running `docker ps -a`\n\texit status 1" []) :=
  ⟨rfl,
    ((getRunningContainers_fatal_iff_failure
      (simEnv [] ⟨"Cannot connect to the Docker daemon", some "exit status 1"⟩ [])).2.1
        "exit status 1" rfl).2.1 (by decide)⟩


/-! ### Verdicts -/

theorem sprintElems_contains : ∀ (xs : List String) (s : String), s ∈ xs →
    s.data <:+: (sprintElems xs).data := by
  intro xs
  induction xs with
  | nil => intro s hs; simp at hs
  | cons x rest ih =>
    intro s hs
    cases rest with
    | nil =>
      have : s = x := by simpa using hs
      subst this
      simp [sprintElems]
    | cons y rest =>
      rcases List.mem_cons.1 hs with h | h
      · subst h
        exact ⟨[], " ".data ++ (sprintElems (y :: rest)).data, by simp [sprintElems]⟩
      · obtain ⟨a, b, hab⟩ := ih s h
        exact ⟨x.data ++ " ".data ++ a, b, by simp [sprintElems, ← hab]⟩

theorem GenericError_data (msg specified : String) (actual : List String) :
    (wrkutils.GenericError msg specified actual).exitMessage.data =
      msg.data ++ ":\n\tSpecified: ".data ++ specified.data ++ "\n\tActual: ".data ++
        ("[".data ++ (sprintElems actual).data ++ "]".data) := by
  simp [wrkutils.GenericError, sprintSlice]

theorem GenericError_invariant (msg specified : String) (actual : List String) :
    VerdictInvariant (wrkutils.GenericError msg specified actual) specified actual := by
  refine ⟨fun h => absurd h (by simp [wrkutils.GenericError]), fun _ => ⟨?_, ?_, ?_⟩⟩
  · intro h
    have h2 := congrArg String.data h
    rw [GenericError_data] at h2
    simp at h2
  · rw [GenericError_data]
    exact ⟨msg.data ++ ":\n\tSpecified: ".data,
      "\n\tActual: ".data ++ ("[".data ++ (sprintElems actual).data ++ "]".data), by simp⟩
  · intro s hs
    obtain ⟨a, b, hab⟩ := sprintElems_contains actual s hs
    rw [GenericError_data]
    exact ⟨msg.data ++ ":\n\tSpecified: ".data ++ specified.data ++ "\n\tActual: ".data ++
      "[".data ++ a, b ++ "]".data, by simp [← hab]⟩

theorem compare_invariant (found : Bool) (msg specified : String) (actual : List String) :
    VerdictInvariant
      (if found then ⟨0, ""⟩ else wrkutils.GenericError msg specified actual) specified actual := by
  cases found with
  | true => exact ⟨fun _ => rfl, fun h => absurd rfl h⟩
  | false => simpa using GenericError_invariant msg specified actual

theorem compare_exitCode (found : Bool) (msg specified : String) (actual : List String) :
    (if found then (⟨0, ""⟩ : Verdict)
      else wrkutils.GenericError msg specified actual).exitCode = 0 ↔ found = true := by
  cases found <;> simp [wrkutils.GenericError]

theorem dockerImage_eq (env : Env) (t : String) (rest S : List String)
    (hS : getDockerImages env = .ok S) :
    dockerImage env (t :: rest) =
      .ok (if tabular.StrIn t S then ⟨0, ""⟩
        else wrkutils.GenericError "Docker image was not found" t S) := by
  by_cases h : tabular.StrIn t S = true <;>
    simp [dockerImage, index, hS, h, bind, Except.bind, pure, Except.pure]

theorem dockerImageRegexp_eq (env : Env) (r : String) (rest S : List String)
    (m : String → Bool) (hr : env.Compile r = some m) (hS : getDockerImages env = .ok S) :
    dockerImageRegexp env (r :: rest) =
      .ok (if tabular.ReIn ⟨r, m⟩ S then ⟨0, ""⟩
        else wrkutils.GenericError "Docker image was not found" r S) := by
  by_cases h : tabular.ReIn ⟨r, m⟩ S = true <;>
    simp [dockerImageRegexp, index, wrkutils.ParseUserRegex, Regexp.String, hr, hS, h, bind,
      Except.bind, pure, Except.pure]

theorem dockerRunning_eq (env : Env) (t : String) (rest S : List String)
    (hS : getRunningContainers env = .ok S) :
    dockerRunning env (t :: rest) =
      .ok (if tabular.StrContainedIn t S then ⟨0, ""⟩
        else wrkutils.GenericError "Docker container not runnning" t S) := by
  by_cases h : tabular.StrContainedIn t S = true <;>
    simp [dockerRunning, index, hS, h, bind, Except.bind, pure, Except.pure]

theorem dockerRunningAPI_eq (env : Env) (e t : String) (rest S : List String)
    (hS : getRunningContainersAPI env e = .ok S) :
    dockerRunningAPI env (e :: t :: rest) =
      .ok (if tabular.StrContainedIn t S then ⟨0, ""⟩
        else wrkutils.GenericError "Docker container not runnning" t S) := by
  by_cases h : tabular.StrContainedIn t S = true <;>
    simp [dockerRunningAPI, index, hS, h, bind, Except.bind, pure, Except.pure]

theorem dockerRunningRegexp_eq (env : Env) (r : String) (rest S : List String)
    (m : String → Bool) (hr : env.Compile r = some m) (hS : getRunningContainers env = .ok S) :
    dockerRunningRegexp env (r :: rest) =
      .ok (if tabular.ReIn ⟨r, m⟩ S then ⟨0, ""⟩
        else wrkutils.GenericError "Docker container not runnning" r S) := by
  by_cases h : tabular.ReIn ⟨r, m⟩ S = true <;>
    simp [dockerRunningRegexp, index, wrkutils.ParseUserRegex, Regexp.String, hr, hS, h, bind,
      Except.bind, pure, Except.pure]

/-- C5. Verdict invariant: each of the five registered handlers, called with a
parameter list of its registered length (a valid expression for the regexp
handlers) while the acquisition returns `S`, returns a verdict in which exit
code 0 comes with the empty message, and a nonzero exit code comes with a
non-empty message containing the searched-for value (the target, or the
source of the expression) and every entry of `S`. -/
theorem verdict_invariant (env : Env) (S : List String) (e t r : String) (m : String → Bool)
    (hr : env.Compile r = some m) :
    (getDockerImages env = .ok S →
      (∃ v, dockerImage env [t] = .ok v ∧ VerdictInvariant v t S) ∧
      (∃ v, dockerImageRegexp env [r] = .ok v ∧ VerdictInvariant v r S)) ∧
    (getRunningContainers env = .ok S →
      (∃ v, dockerRunning env [t] = .ok v ∧ VerdictInvariant v t S) ∧
      (∃ v, dockerRunningRegexp env [r] = .ok v ∧ VerdictInvariant v r S)) ∧
    (getRunningContainersAPI env e = .ok S →
      ∃ v, dockerRunningAPI env [e, t] = .ok v ∧ VerdictInvariant v t S) := by
  refine ⟨fun hS => ⟨?_, ?_⟩, fun hS => ⟨?_, ?_⟩, fun hS => ?_⟩
  · exact ⟨_, dockerImage_eq env t [] S hS, compare_invariant _ _ _ _⟩
  · exact ⟨_, dockerImageRegexp_eq env r [] S m hr hS, compare_invariant _ _ _ _⟩
  · exact ⟨_, dockerRunning_eq env t [] S hS, compare_invariant _ _ _ _⟩
  · exact ⟨_, dockerRunningRegexp_eq env r [] S m hr hS, compare_invariant _ _ _ _⟩
  · exact ⟨_, dockerRunningAPI_eq env e t [] S hS, compare_invariant _ _ _ _⟩

/-- Witness of C5 on a simulated host with images `ubuntu` and `alpine`: the
check for `debian` fails, and its verdict satisfies the invariant. -/
theorem verdict_invariant_witness :
    dockerImage (simEnv ["ubuntu", "alpine"] ⟨psListing, none⟩ []) ["debian"] =
      .ok ⟨1, "Docker image was not found:\n\tSpecified: debian\n\tActual: [ubuntu alpine]"⟩ ∧
    ∃ v, dockerImage (simEnv ["ubuntu", "alpine"] ⟨psListing, none⟩ []) ["debian"] = .ok v ∧
      VerdictInvariant v "debian" ["ubuntu", "alpine"] :=
  ⟨rfl,
    ((verdict_invariant (simEnv ["ubuntu", "alpine"] ⟨psListing, none⟩ [])
      ["ubuntu", "alpine"] "unix:///var/run/docker.sock" "debian" "^deb"
      ((compileFragment "^deb").get rfl)
      (Option.some_get (show (compileFragment "^deb").isSome = true from rfl)).symm).1 rfl).1⟩

/-- C6. Pattern-presence check: for a valid expression `r` with matcher `m`,
when the acquisition returns `S`, `dockerImageRegexp([r])` (over the images)
and `dockerRunningRegexp([r])` (over the running containers) return a verdict
whose exit code is 0 if and only if some entry of `S` matches; with
`S = ["ubuntu", "alpine"]`, `^ubu.*` passes and `^zzz` fails with a message
made of the source `^zzz` and both candidates. -/
theorem regexp_pattern_presence (env : Env) (S : List String) (r : String) (m : String → Bool)
    (hr : env.Compile r = some m) :
    (getDockerImages env = .ok S →
      ∃ v, dockerImageRegexp env [r] = .ok v ∧ (v.exitCode = 0 ↔ ∃ s ∈ S, m s = true)) ∧
    (getRunningContainers env = .ok S →
      ∃ v, dockerRunningRegexp env [r] = .ok v ∧ (v.exitCode = 0 ↔ ∃ s ∈ S, m s = true)) ∧
    dockerImageRegexp (simEnv ["ubuntu", "alpine"] ⟨"", none⟩ []) ["^ubu.*"] = .ok ⟨0, ""⟩ ∧
    dockerImageRegexp (simEnv ["ubuntu", "alpine"] ⟨"", none⟩ []) ["^zzz"] =
      .ok ⟨1, "Docker image was not found:\n\tSpecified: ^zzz\n\tActual: [ubuntu alpine]"⟩ ∧
    "^zzz".data <:+:
      "Docker image was not found:\n\tSpecified: ^zzz\n\tActual: [ubuntu alpine]".data ∧
    "ubuntu".data <:+:
      "Docker image was not found:\n\tSpecified: ^zzz\n\tActual: [ubuntu alpine]".data ∧
    "alpine".data <:+:
      "Docker image was not found:\n\tSpecified: ^zzz\n\tActual: [ubuntu alpine]".data := by
  refine ⟨fun hS => ?_, fun hS => ?_, rfl, rfl, by decide, by decide, by decide⟩
  · refine ⟨_, dockerImageRegexp_eq env r [] S m hr hS, ?_⟩
    rw [compare_exitCode, ReIn_iff]
  · refine ⟨_, dockerRunningRegexp_eq env r [] S m hr hS, ?_⟩
    rw [compare_exitCode, ReIn_iff]

/-- Witness of C6 on a simulated host running `redis`: the expression `^red.*s$`
is valid and matches. -/
theorem regexp_pattern_presence_witness :
    dockerRunningRegexp (simEnv [] ⟨psListing, none⟩ []) ["^red.*s$"] = .ok ⟨0, ""⟩ ∧
    ∃ v, dockerRunningRegexp (simEnv [] ⟨psListing, none⟩ []) ["^red.*s$"] = .ok v ∧
      (v.exitCode = 0 ↔
        ∃ s ∈ ["redis"], (compileFragment "^red.*s$").get rfl s = true) :=
  ⟨rfl,
    (regexp_pattern_presence (simEnv [] ⟨psListing, none⟩ []) ["redis"] "^red.*s$"
      ((compileFragment "^red.*s$").get rfl)
      (Option.some_get (show (compileFragment "^red.*s$").isSome = true from rfl)).symm).2.1 rfl⟩


/-! ### Parameter accesses -/

theorem getDockerImages_noFault (env : Env) : indexFault (getDockerImages env) = false := by
  unfold getDockerImages
  cases env.CommandColumnNoHeader 0 ["docker", "images"] <;> rfl

theorem getRunningContainers_noFault (env : Env) :
    indexFault (getRunningContainers env) = false := by
  cases he : (env.CombinedOutput ["docker", "ps", "-a"]).err with
  | some e =>
    by_cases hc : strings.Contains (env.CombinedOutput ["docker", "ps", "-a"]).out
        "permission denied" = true <;>
      simp [getRunningContainers, he, hc, indexFault]
  | none =>
    by_cases hl : (env.ProbabalisticSplit (env.CombinedOutput ["docker", "ps", "-a"]).out).length < 1
    · simp [getRunningContainers, he, hl, indexFault]
    · simp [getRunningContainers, he, hl, loop_eq_range, indexFault]

theorem getRunningContainersAPI_noFault (env : Env) (path : String) :
    indexFault (getRunningContainersAPI env path) = false := by
  cases hc : env.NewClient path with
  | error err => simp [getRunningContainersAPI, hc, indexFault]
  | ok client =>
    cases h : client.ListContainers false with
    | error err => simp [getRunningContainersAPI, hc, h, indexFault]
    | ok ctrs => simp [getRunningContainersAPI, hc, h, indexFault]

theorem ParseUserRegex_noFault (env : Env) (regexStr : String) :
    indexFault (wrkutils.ParseUserRegex env regexStr) = false := by
  unfold wrkutils.ParseUserRegex
  cases env.Compile regexStr <;> rfl

theorem indexFault_error_of_noFault {α β : Type} (r : Run α) (a : Abort)
    (hr : indexFault r = false) (ha : r = .error a) :
    indexFault (.error a : Run β) = false := by
  subst ha
  cases a with
  | fatal msg fields => rfl
  | indexOutOfRange i n => simp [indexFault] at hr

theorem dockerImage_fault (env : Env) (parameters : List String) :
    indexFault (dockerImage env parameters) = decide (parameters.length < 1) := by
  cases parameters with
  | nil => simp [dockerImage, index, indexFault, bind, Except.bind]
  | cons t rest =>
    cases h : getDockerImages env with
    | ok S => simp [dockerImage_eq env t rest S h, indexFault]
    | error a =>
      have := indexFault_error_of_noFault (β := Verdict) _ a (getDockerImages_noFault env) h
      simpa [dockerImage, index, h, bind, Except.bind] using this

theorem dockerRunning_fault (env : Env) (parameters : List String) :
    indexFault (dockerRunning env parameters) = decide (parameters.length < 1) := by
  cases parameters with
  | nil => simp [dockerRunning, index, indexFault, bind, Except.bind]
  | cons t rest =>
    cases h : getRunningContainers env with
    | ok S => simp [dockerRunning_eq env t rest S h, indexFault]
    | error a =>
      have := indexFault_error_of_noFault (β := Verdict) _ a (getRunningContainers_noFault env) h
      simpa [dockerRunning, index, h, bind, Except.bind] using this

theorem dockerRunningAPI_fault (env : Env) (parameters : List String) :
    indexFault (dockerRunningAPI env parameters) = decide (parameters.length < 2) := by
  cases parameters with
  | nil => simp [dockerRunningAPI, index, indexFault, bind, Except.bind]
  | cons e rest =>
    cases rest with
    | nil => simp [dockerRunningAPI, index, indexFault, bind, Except.bind]
    | cons t rest =>
      cases h : getRunningContainersAPI env e with
      | ok S => simp [dockerRunningAPI_eq env e t rest S h, indexFault]
      | error a =>
        have := indexFault_error_of_noFault (β := Verdict) _ a
          (getRunningContainersAPI_noFault env e) h
        simpa [dockerRunningAPI, index, h, bind, Except.bind] using this

theorem dockerImageRegexp_fault (env : Env) (parameters : List String) :
    indexFault (dockerImageRegexp env parameters) = decide (parameters.length < 1) := by
  cases parameters with
  | nil => simp [dockerImageRegexp, index, indexFault, bind, Except.bind]
  | cons r rest =>
    cases hr : env.Compile r with
    | none =>
      simp [dockerImageRegexp, index, wrkutils.ParseUserRegex, hr, indexFault, bind, Except.bind]
    | some m =>
      cases h : getDockerImages env with
      | ok S => simp [dockerImageRegexp_eq env r rest S m hr h, indexFault]
      | error a =>
        have := indexFault_error_of_noFault (β := Verdict) _ a (getDockerImages_noFault env) h
        simpa [dockerImageRegexp, index, wrkutils.ParseUserRegex, hr, h, bind, Except.bind]
          using this

theorem dockerRunningRegexp_fault (env : Env) (parameters : List String) :
    indexFault (dockerRunningRegexp env parameters) = decide (parameters.length < 1) := by
  cases parameters with
  | nil => simp [dockerRunningRegexp, index, indexFault, bind, Except.bind]
  | cons r rest =>
    cases hr : env.Compile r with
    | none =>
      simp [dockerRunningRegexp, index, wrkutils.ParseUserRegex, hr, indexFault, bind,
        Except.bind]
    | some m =>
      cases h : getRunningContainers env with
      | ok S => simp [dockerRunningRegexp_eq env r rest S m hr h, indexFault]
      | error a =>
        have := indexFault_error_of_noFault (β := Verdict) _ a
          (getRunningContainers_noFault env) h
        simpa [dockerRunningRegexp, index, wrkutils.ParseUserRegex, hr, h, bind, Except.bind]
          using this

theorem RegisterDocker_fault (env : Env) (c : Check) (hc : c ∈ RegisterDocker env)
    (parameters : List String) :
    indexFault (c.work parameters) = decide (parameters.length < c.numParams) := by
  simp only [RegisterDocker, List.mem_cons, List.mem_singleton, List.not_mem_nil, or_false] at hc
  rcases hc with h | h | h | h | h <;> subst h
  · exact dockerImage_fault env parameters
  · exact dockerRunning_fault env parameters
  · exact dockerRunningAPI_fault env parameters
  · exact dockerImageRegexp_fault env parameters
  · exact dockerRunningRegexp_fault env parameters

/-- C10, refuted as stated. On a simulated host whose image list holds
`ubuntu`, `dockerImage`, registered with count 1, is called with two
parameters: the arity check `len(parameters) = 1` fails, yet no access is out
of range and the verdict `(0, "")` is returned. So "no handler faults" does
not hold exactly when the arity check passes. -/
theorem dockerImage_extra_parameter :
    (⟨"dockerimage", 1⟩ : String × Nat) ∈
      (RegisterDocker (simEnv ["ubuntu"] ⟨psListing, none⟩ [])).map
        (fun c => (c.name, c.numParams)) ∧
    ["ubuntu", "extra"].length ≠ 1 ∧
    dockerImage (simEnv ["ubuntu"] ⟨psListing, none⟩ []) ["ubuntu", "extra"] = .ok ⟨0, ""⟩ ∧
    indexFault (dockerImage (simEnv ["ubuntu"] ⟨psListing, none⟩ []) ["ubuntu", "extra"]) =
      false ∧
    ¬ (∀ c ∈ RegisterDocker (simEnv ["ubuntu"] ⟨psListing, none⟩ []),
        ∀ parameters : List String,
          indexFault (c.work parameters) = false ↔ parameters.length = c.numParams) := by
  refine ⟨by simp [RegisterDocker], by decide, rfl, rfl, fun h => ?_⟩
  have h1 := (h ⟨"dockerimage", dockerImage (simEnv ["ubuntu"] ⟨psListing, none⟩ []), 1⟩
    (by simp [RegisterDocker]) ["ubuntu", "extra"]).1 rfl
  simp at h1

/-- C10, amended. Registered arity matches handler usage: `RegisterDocker`
registers five pairwise distinct names with the counts 1, 1, 2, 1, 1; for
every registered handler with count `n`, no access to the parameter list is
out of range when `len(parameters) = n`, and an access is out of range when
`len(parameters) < n`; `dockerImage` on zero parameters panics and returns no
verdict. A handler faults exactly when `len(parameters) < n`, that is, no
handler faults exactly when `n ≤ len(parameters)`: the arity check
`len(parameters) = n` is a sufficient precondition for no fault, and `n` is
the only count for which all lists of that length are safe while all shorter
lists fault. -/
theorem RegisterDocker_arity (env : Env) :
    (RegisterDocker env).map (fun c => (c.name, c.numParams)) =
      [("dockerimage", 1), ("dockerrunning", 1), ("dockerrunningapi", 2),
       ("dockerimageregexp", 1), ("dockerrunningregexp", 1)] ∧
    ((RegisterDocker env).map Check.name).Nodup ∧
    (∀ c ∈ RegisterDocker env, ∀ parameters : List String,
      (parameters.length = c.numParams → indexFault (c.work parameters) = false) ∧
      (parameters.length < c.numParams → indexFault (c.work parameters) = true) ∧
      (indexFault (c.work parameters) = true ↔ parameters.length < c.numParams) ∧
      (indexFault (c.work parameters) = false ↔ c.numParams ≤ parameters.length)) ∧
    dockerImage env [] = .error (.indexOutOfRange 0 0) ∧
    (∀ v, dockerImage env [] ≠ .ok v) ∧
    (∀ c ∈ RegisterDocker env, ∀ k : Nat,
      (∀ parameters : List String, parameters.length = k →
        indexFault (c.work parameters) = false) →
      (∀ parameters : List String, parameters.length < k →
        indexFault (c.work parameters) = true) →
      k = c.numParams) := by
  refine ⟨rfl, by simp [RegisterDocker], ?_, rfl,
    fun v h => by simp [dockerImage, index, bind, Except.bind] at h, ?_⟩
  · intro c hc parameters
    have hf := RegisterDocker_fault env c hc parameters
    refine ⟨fun h => ?_, fun h => ?_, ?_, ?_⟩
    · rw [hf]; simp [h]
    · rw [hf]; simp [h]
    · rw [hf]; simp
    · rw [hf]; simp
  · intro c hc k hsafe hfault
    by_contra hne
    rcases Nat.lt_or_gt_of_ne hne with hlt | hgt
    · have h1 := hsafe (List.replicate k "") (by simp)
      rw [RegisterDocker_fault env c hc] at h1
      simp at h1
      omega
    · have h1 := hfault (List.replicate c.numParams "") (by simpa using hgt)
      rw [RegisterDocker_fault env c hc] at h1
      simp at h1

/-- Witness of C10 on a simulated host: `dockerrunningapi`, registered with
count 2, panics on a single parameter and not on two. -/
theorem RegisterDocker_arity_witness :
    indexFault (dockerRunningAPI (simEnv [] ⟨psListing, none⟩ []) ["unix:///var/run/docker.sock"]) =
      true ∧
    indexFault
      (dockerRunningAPI (simEnv [] ⟨psListing, none⟩ []) ["unix:///var/run/docker.sock", "redis"]) =
      false :=
  ⟨((RegisterDocker_arity (simEnv [] ⟨psListing, none⟩ [])).2.2.1
      ⟨"dockerrunningapi", dockerRunningAPI (simEnv [] ⟨psListing, none⟩ []), 2⟩
      (by simp [RegisterDocker]) ["unix:///var/run/docker.sock"]).2.1 (by decide),
   ((RegisterDocker_arity (simEnv [] ⟨psListing, none⟩ [])).2.2.1
      ⟨"dockerrunningapi", dockerRunningAPI (simEnv [] ⟨psListing, none⟩ []), 2⟩
      (by simp [RegisterDocker]) ["unix:///var/run/docker.sock", "redis"]).1 rfl⟩

end Distributive
